import Mathlib

/-!
Verification of the bonsai worktree CLI core: branch-name validation,
branch-name sanitization, the git wrapper layer (`src/lib/git.ts`), and the
`grow` / `prune` lifecycle controllers (`src/commands/grow.ts`,
`src/commands/prune.ts`).

JavaScript strings are modelled as Lean `String`s, and the JS string
operations used by the source (`trim`, `startsWith`, `endsWith`, `includes`,
`split`, single-character global `replace`) are given explicit executable
definitions over `String.data` so that every theorem can be evaluated on
concrete inputs.

Each git subprocess call is modelled by its observable `ProcResult`
(exit code, stdout, stderr), supplied by an environment record; the
controllers return both a structured outcome and the ordered trace of
subprocess calls and confirmation prompts they issued.
-/

namespace Bonsai

/-- Observable result of one spawned git subprocess (`$\x7b...\x7d.quiet().nothrow()`). -/
structure ProcResult where
  exitCode : Int
  stdout : String
  stderr : String
deriving DecidableEq

/-- `validateBranchName`s result shape (`BranchValidationResult` in `git.ts`):
`valid` flag plus optional error message. -/
structure BranchValidationResult where
  valid : Bool
  error : Option String
deriving DecidableEq

/-! ## JS string operations -/

/-- JS `String.prototype.trim`: drop whitespace from both ends. -/
def jsTrim (s : String) : String :=
  ⟨((s.data.dropWhile Char.isWhitespace).reverse.dropWhile Char.isWhitespace).reverse⟩

/-- JS `s.startsWith(pre)`. -/
def jsStartsWith (s pre : String) : Bool :=
  pre.data.isPrefixOf s.data

/-- JS `s.endsWith(post)`. -/
def jsEndsWith (s post : String) : Bool :=
  post.data.isSuffixOf s.data

/-- Does `sub` occur as a contiguous run inside `l`? -/
def containsSub (sub : List Char) : List Char → Bool
  | [] => sub.isPrefixOf []
  | c :: t => sub.isPrefixOf (c :: t) || containsSub sub t

/-- JS `s.includes(sub)`. -/
def jsIncludes (s sub : String) : Bool :=
  containsSub sub.data s.data

/-- Drop the first `n` characters (used to model `line.replace(pre, "")`
when `line.startsWith(pre)` holds and `pre` has `n` characters). -/
def strDrop (s : String) (n : Nat) : String :=
  ⟨s.data.drop n⟩

/-- One step of splitting a character list on newline characters. -/
def splitNl : List Char → List Char → List String
  | [], acc => [⟨acc.reverse⟩]
  | c :: rest, acc =>
    if c = '\n' then ⟨acc.reverse⟩ :: splitNl rest []
    else splitNl rest (c :: acc)

/-- JS `s.split("\n")` (note: `"".split("\n")` is `[""]`, as in JS). -/
def jsSplitLines (s : String) : List String :=
  splitNl s.data []

/-- JS `basename(p)` as used for display names: the part after the last slash. -/
def jsBasename (s : String) : String :=
  ⟨(s.data.reverse.takeWhile (fun c => c ≠ '/')).reverse⟩

/-! ## Branch name validation (`validateBranchName` in `git.ts`) -/

def errEmpty : String := "Branch name cannot be empty"
def errDash : String :=
  "Branch name cannot start with \x27-\x27 (would be interpreted as a git flag)"
def errChars : String :=
  "Branch name contains invalid characters (allowed: letters, numbers, . _ / -)"
def errDotDot : String := "Branch name cannot contain \x27..\x27"
def errLock : String := "Branch name cannot end with \x27.lock\x27"

/-- The allowed character class: ASCII letters, digits, dot, underscore,
slash, dash. -/
def allowedChar (c : Char) : Bool :=
  c.isAlpha || c.isDigit || c = '.' || c = '_' || c = '/' || c = '-'

/-- The anchored regex test on the allowed class with `+`: at least one
character, and every character in the allowed class. -/
def regexTest (s : String) : Bool :=
  !s.data.isEmpty && s.data.all allowedChar

/-- `validateBranchName` from `git.ts`, rule for rule in source order:
empty/whitespace-only, leading dash, character class, `..`, trailing `.lock`. -/
def validateBranchName (branch : String) : BranchValidationResult :=
  if branch = "" ∨ jsTrim branch = "" then ⟨false, some errEmpty⟩
  else if jsStartsWith branch "-" = true then ⟨false, some errDash⟩
  else if ¬ regexTest branch = true then ⟨false, some errChars⟩
  else if jsIncludes branch ".." = true then ⟨false, some errDotDot⟩
  else if jsEndsWith branch ".lock" = true then ⟨false, some errLock⟩
  else ⟨true, none⟩

/-! A second validator, stated the way the specification words the rules
("empty/whitespace-only names; names starting with `-`; names containing
characters outside `[A-Za-z0-9._ / -]`; names containing `..`; names ending in
`.lock` ... first failing rule determines the reported reason"), as an
ordered rule list; used to check the source validator against the spec. -/

/-- Spec rule 1: the name consists only of whitespace (including the empty name). -/
def wsOnly (s : String) : Bool := s.data.all Char.isWhitespace

/-- Spec rule 3: the name contains a character outside `[A-Za-z0-9._ / -]`. -/
def containsBadChar (s : String) : Bool := s.data.any (fun c => !allowedChar c)

/-- The five spec rejection rules, in the spec order, each with its reason. -/
def specRules : List ((String → Bool) × String) :=
  [(wsOnly, errEmpty),
   (fun s => jsStartsWith s "-", errDash),
   (containsBadChar, errChars),
   (fun s => jsIncludes s "..", errDotDot),
   (fun s => jsEndsWith s ".lock", errLock)]

/-- Reason of the first failing rule, if any. -/
def firstFailingRule : List ((String → Bool) × String) → String → Option String
  | [], _ => none
  | r :: rs, s => if r.1 s = true then some r.2 else firstFailingRule rs s

/-- Validator as the specification words it: the first failing rule of
`specRules` determines the reported reason; no failing rule means `Ok`. -/
def validateSpecModel (s : String) : BranchValidationResult :=
  match firstFailingRule specRules s with
  | some e => ⟨false, some e⟩
  | none => ⟨true, none⟩

/-! ## Branch name sanitization (`sanitizeBranchName` in `git.ts`) -/

/-- Replacement applied to each character by `branch.replace(/\//g, "-")`. -/
def sanitizeChar (c : Char) : Char := if c = '/' then '-' else c

/-- `sanitizeBranchName`: replace every slash with a dash. -/
def sanitizeBranchName (branch : String) : String :=
  ⟨branch.data.map sanitizeChar⟩

/-- Node `path.join(base, name)` for the plain (already normalized)
paths the controllers build. -/
def pathJoin (a b : String) : String := a ++ "/" ++ b

/-! ## Git wrapper layer (`git.ts`)

Each wrapper takes the `ProcResult` of the subprocess it spawns and either
produces its value or a `GitError`, exactly as the source either returns or
throws. -/

/-- `GitError` from `git.ts`: message, exit code, and captured stderr. -/
structure GitError where
  message : String
  exitCode : Int
  stderr : String
deriving DecidableEq

/-- Error construction shared by all throwing wrappers: trim stderr, fall
back to `"unknown error"` in the message when stderr is empty. -/
def gitFail (msgStart : String) (r : ProcResult) : GitError :=
  let stderr := jsTrim r.stderr
  ⟨msgStart ++ (if stderr = "" then "unknown error" else stderr), r.exitCode, stderr⟩

/-- `listWorktrees`: throws on non-zero exit, else collects the paths of all
lines beginning with `"worktree "`. -/
def listWorktrees (r : ProcResult) : Except GitError (List String) :=
  if r.exitCode ≠ 0 then .error (gitFail "Failed to list worktrees: " r)
  else .ok ((jsSplitLines r.stdout).filterMap
    (fun line => if jsStartsWith line "worktree " = true then some (strDrop line 9) else none))

/-- `getWorktreeStatus`: throws on non-zero exit, else the trimmed porcelain
output (empty means clean). -/
def getWorktreeStatus (r : ProcResult) : Except GitError String :=
  if r.exitCode ≠ 0 then .error (gitFail "Failed to get worktree status: " r)
  else .ok (jsTrim r.stdout)

/-- `removeWorktree` result handling: throws on non-zero exit. -/
def removeWorktree (r : ProcResult) : Except GitError Unit :=
  if r.exitCode ≠ 0 then .error (gitFail "Failed to remove worktree: " r)
  else .ok ()

/-- `pruneStaleWorktrees` result handling: throws on non-zero exit. -/
def pruneStaleWorktrees (r : ProcResult) : Except GitError Unit :=
  if r.exitCode ≠ 0 then .error (gitFail "Failed to prune stale worktrees: " r)
  else .ok ()

/-- `fetchRemote` result handling: throws on non-zero exit. -/
def fetchRemote (r : ProcResult) : Except GitError Unit :=
  if r.exitCode ≠ 0 then .error (gitFail "Failed to fetch from remote: " r)
  else .ok ()

/-- `WorktreeInfo` from `git.ts`: a worktree list entry for a branch, with
`existsOnDisk` (the source field `exists`) recording whether the directory
still exists. -/
structure WorktreeInfo where
  path : String
  branch : String
  existsOnDisk : Bool
deriving DecidableEq

/-- JS truthiness of a nullable string variable: non-null and non-empty.
Used for the `currentPath` check in `findWorktreeForBranch` and for the
`if (!startPoint)` guard in `createWorktree`. -/
def pathTruthy : Option String → Bool
  | some s => s ≠ ""
  | none => false

/-- The scanning loop of `findWorktreeForBranch` over the porcelain lines,
carrying `currentPath` and `currentBranch` exactly as the source does. -/
def findLoop (dirExists : String → Bool) (branch : String) :
    List String → Option String → Option String → Option WorktreeInfo
  | [], _, _ => none
  | line :: rest, currentPath, currentBranch =>
    if jsStartsWith line "worktree " = true then
      findLoop dirExists branch rest (some (strDrop line 9)) currentBranch
    else if jsStartsWith line "branch refs/heads/" = true then
      let cb := strDrop line 18
      if cb = branch ∧ pathTruthy currentPath = true then
        let p := currentPath.getD ""
        some ⟨p, cb, dirExists p⟩
      else findLoop dirExists branch rest currentPath (some cb)
    else if line = "" then
      findLoop dirExists branch rest none none
    else
      findLoop dirExists branch rest currentPath currentBranch

/-- `findWorktreeForBranch` from `git.ts`: when the `git worktree list
--porcelain` subprocess exits non-zero the source returns `null`; otherwise
it scans the porcelain lines for the branch and stats the recorded path. -/
def findWorktreeForBranch (r : ProcResult) (dirExists : String → Bool)
    (branch : String) : Option WorktreeInfo :=
  if r.exitCode ≠ 0 then none
  else findLoop dirExists branch (jsSplitLines r.stdout) none none

/-- Modelled from the spec: the specification states that every inspector
call that shells out to git surfaces a `GitError` on non-zero exit and that
the Inspector never catches and hides one, so this variant of
`findWorktreeForBranch` propagates the failure of `git worktree list
--porcelain` instead of returning `null`. Used only to compare the source
behaviour against the specified one. -/
def findWorktreeForBranchSpecModel (r : ProcResult) (dirExists : String → Bool)
    (branch : String) : Except GitError (Option WorktreeInfo) :=
  if r.exitCode ≠ 0 then .error (gitFail "Failed to list worktrees: " r)
  else .ok (findLoop dirExists branch (jsSplitLines r.stdout) none none)

/-! ## Events: subprocess calls and confirmation prompts, in issue order -/

/-- The three shapes of `git worktree add` invocation in `createWorktree`. -/
inductive AddCmd where
  /-- `git worktree add <path> -b <branch> origin/<branch>` -/
  | trackRemote (path branch : String)
  /-- `git worktree add <path> <branch>` -/
  | attachLocal (path branch : String)
  /-- `git worktree add -b <branch> <path> <startPoint>` -/
  | newBranch (branch path startPoint : String)
deriving DecidableEq

/-- One observable step of a command invocation: a git subprocess call or an
interactive confirmation prompt (with the answer given; `none` models the
prompt being cancelled). -/
inductive Event where
  | fetch
  | revParse (ref : String)
  | worktreeList
  | status (path : String)
  | worktreeAdd (cmd : AddCmd)
  | worktreeRemove (path : String) (force : Bool)
  | worktreePrune
  | confirm (answer : Option Bool)
deriving DecidableEq

/-- Mutating git calls in the sense of the spec invariant:
`worktree add`, `worktree remove`, `worktree prune`. -/
def Event.isMutating : Event → Bool
  | .worktreeAdd _ => true
  | .worktreeRemove _ _ => true
  | .worktreePrune => true
  | _ => false

/-- Is this event a `git worktree add` call? -/
def Event.isAdd : Event → Bool
  | .worktreeAdd _ => true
  | _ => false

/-- Is this event a `git worktree remove` call? -/
def Event.isRemove : Event → Bool
  | .worktreeRemove _ _ => true
  | _ => false

/-- Is this event a confirmation prompt? -/
def Event.isConfirm : Event → Bool
  | .confirm _ => true
  | _ => false

/-! ## Branch classification and worktree creation -/

/-- The read-only git facts and the `worktree add` results available to one
invocation; function-valued so one environment answers for every ref/path. -/
structure GitEnv where
  /-- Does `git rev-parse --verify <branch>` succeed (local ref exists)? -/
  branchLocal : String → Bool
  /-- Does `git rev-parse --verify origin/<branch>` succeed? -/
  branchRemote : String → Bool
  /-- Result of the given `git worktree add` invocation. -/
  addResult : AddCmd → ProcResult

/-- `branchExists` from `git.ts`: check the local ref; only when that fails,
check `origin/<branch>`. Returns the value plus the calls issued. -/
def branchExists (env : GitEnv) (branch : String) : Bool × List Event :=
  if env.branchLocal branch then (true, [.revParse branch])
  else (env.branchRemote branch, [.revParse branch, .revParse ("origin/" ++ branch)])

/-- `isRemoteOnlyBranch` from `git.ts`: always issues both rev-parse calls;
true when the local ref is missing and the origin ref exists. -/
def isRemoteOnlyBranch (env : GitEnv) (branch : String) : Bool × List Event :=
  (!env.branchLocal branch && env.branchRemote branch,
   [.revParse branch, .revParse ("origin/" ++ branch)])

/-- Check the `worktree add` subprocess result as `createWorktree` does. -/
def checkAdd (r : ProcResult) : Except GitError Unit :=
  if r.exitCode ≠ 0 then .error (gitFail "Failed to create worktree: " r)
  else .ok ()

def errMissingStartPoint : String :=
  "Cannot create new branch: main branch start point not configured. Run bonsai init and set the main branch."

/-- `createWorktree` from `git.ts`: classify the branch, then issue exactly
one of the three `worktree add` shapes, or throw without any `add` call when
a brand-new branch has no usable start point. The source guard is the falsy
check `if (!startPoint)`, so a missing and an empty-string start point both
throw the missing-start-point error. -/
def createWorktree (env : GitEnv) (worktreePath branch : String)
    (startPoint : Option String) : Except GitError Unit × List Event :=
  let (ex, t1) := branchExists env branch
  let (remOnly, t2) := isRemoteOnlyBranch env branch
  if remOnly = true then
    let cmd := AddCmd.trackRemote worktreePath branch
    (checkAdd (env.addResult cmd), t1 ++ t2 ++ [.worktreeAdd cmd])
  else if ex = true then
    let cmd := AddCmd.attachLocal worktreePath branch
    (checkAdd (env.addResult cmd), t1 ++ t2 ++ [.worktreeAdd cmd])
  else
    if pathTruthy startPoint = false then
      (.error ⟨errMissingStartPoint, -1, ""⟩, t1 ++ t2)
    else
      let cmd := AddCmd.newBranch branch worktreePath (startPoint.getD "")
      (checkAdd (env.addResult cmd), t1 ++ t2 ++ [.worktreeAdd cmd])

/-! ## The `grow` controller (`src/commands/grow.ts`) -/

/-- The configuration fields `grow`/`prune` read
(`config.repo.worktree_base`, `config.repo.main_branch`). -/
structure BonsaiConfig where
  worktree_base : String
  main_branch : Option String
deriving DecidableEq

/-- Environment of one `grow` invocation: configuration lookup, filesystem
probes, and the results of the subprocesses it may spawn. -/
structure GrowEnv where
  git : GitEnv
  /-- `findConfigForCwd()`: `none` when no bonsai config is found. -/
  config : Option BonsaiConfig
  /-- `Bun.file(path).exists()` for the target folder check. -/
  folderExists : String → Bool
  /-- `fs.stat` directory check used by `findWorktreeForBranch`. -/
  dirExists : String → Bool
  /-- Result of `git fetch --all --prune` (failure is tolerated). -/
  fetchResult : ProcResult
  /-- Result of `git worktree list --porcelain`. -/
  worktreeListResult : ProcResult
  /-- Answer to the stale-worktree confirmation prompt (`none` = cancelled). -/
  confirmStale : Option Bool
  /-- Result of `git worktree prune`. -/
  pruneResult : ProcResult

/-- Terminal outcome of one `grow` invocation. -/
inductive GrowOutcome where
  | missingBranchName
  | invalidBranchName (err : String)
  | noConfig
  | worktreeAlreadyExists (path : String)
  | branchCheckedOutElsewhere (path : String)
  | cancelledStale
  | pruneFailed (msg : String)
  | createFailed (msg : String)
  | success (path branch : String)
deriving DecidableEq

/-- Exit code of the process for each `grow` outcome, from the
`process.exit` calls in `grow.ts`: declining the stale-worktree prompt exits
with `0`, the success path falls through to a normal exit `0`, every other
terminal outcome calls `process.exit(1)`. -/
def growExitCode : GrowOutcome → Nat
  | .cancelledStale => 0
  | .success _ _ => 0
  | _ => 1

/-- The creation step of `grow`: call `createWorktree` and map its result. -/
def growCreate (env : GrowEnv) (worktreePath branchName : String)
    (mainBranch : String) : GrowOutcome × List Event :=
  let (res, t) := createWorktree env.git worktreePath branchName
    (some ("origin/" ++ mainBranch))
  match res with
  | .error e => (.createFailed e.message, t)
  | .ok _ => (.success worktreePath branchName, t)

/-- `growCommand` from `grow.ts`: validate the name, load config, refuse an
existing target folder, fetch (best effort), classify the branch, detect a
conflicting or stale worktree record, and finally create the worktree. -/
def growCommand (branchName : String) (env : GrowEnv) : GrowOutcome × List Event :=
  if branchName = "" then (.missingBranchName, [])
  else
    let v := validateBranchName branchName
    if v.valid = false then (.invalidBranchName (v.error.getD ""), [])
    else
      match env.config with
      | none => (.noConfig, [])
      | some config =>
        let folderName := sanitizeBranchName branchName
        let worktreePath := pathJoin config.worktree_base folderName
        if env.folderExists worktreePath = true then
          (.worktreeAlreadyExists worktreePath, [])
        else
          let (_ex, t1) := branchExists env.git branchName
          let (_remOnly, t2) := isRemoteOnlyBranch env.git branchName
          let mainBranch := config.main_branch.getD "main"
          let found := findWorktreeForBranch env.worktreeListResult env.dirExists branchName
          let pre : List Event := Event.fetch :: (t1 ++ t2 ++ [Event.worktreeList])
          match found with
          | some w =>
            if w.existsOnDisk = true then (.branchCheckedOutElsewhere w.path, pre)
            else
              let tc := pre ++ [Event.confirm env.confirmStale]
              if env.confirmStale = some true then
                match pruneStaleWorktrees env.pruneResult with
                | .error e => (.pruneFailed e.message, tc ++ [Event.worktreePrune])
                | .ok _ =>
                  let (o, t) := growCreate env worktreePath branchName mainBranch
                  (o, tc ++ [Event.worktreePrune] ++ t)
              else (.cancelledStale, tc)
          | none =>
            let (o, t) := growCreate env worktreePath branchName mainBranch
            (o, pre ++ t)

/-! ## The `prune` controller (`src/commands/prune.ts`) -/

/-- Environment of one `prune` invocation (single-target or per-target in
multi-select mode). -/
structure PruneEnv where
  /-- `findConfigForCwd()`. -/
  config : Option BonsaiConfig
  /-- Result of `git worktree list --porcelain`. -/
  listResult : ProcResult
  /-- `Bun.file(join(path, ".git")).exists()`. -/
  gitMarker : String → Bool
  /-- Result of `git -C <path> status --porcelain` for each path. -/
  statusResult : String → ProcResult
  /-- Answer to the force-delete prompt for each path (`none` = cancelled). -/
  confirmForce : String → Option Bool
  /-- Result of `git worktree remove [--force] <path>`. -/
  removeResult : String → Bool → ProcResult

/-- Terminal outcome of one single-target `prune` invocation. An uncaught
`GitError` from `listWorktrees`/`getWorktreeStatus` propagates out of
`pruneCommand` to the top-level handler (`listError`/`statusError`). -/
inductive PruneOutcome where
  | noConfig
  | invalidBranchName (err : String)
  | listError (e : GitError)
  | worktreeNotFound (path : String)
  | statusError (e : GitError)
  | cancelled
  | removeFailed (msg : String)
  | removed (path : String) (forced : Bool)
deriving DecidableEq

/-- Exit code for each single-target `prune` outcome, from the
`process.exit` calls in `prune.ts` and the top-level `main().catch` handler:
declining (or cancelling) the force-delete prompt exits `0`, success falls
through to a normal exit `0`, everything else exits `1`. -/
def pruneExitCode : PruneOutcome → Nat
  | .cancelled => 0
  | .removed _ _ => 0
  | _ => 1

/-- `pruneCommand` from `prune.ts`, single-target mode (a branch name was
given): load config, validate the name, resolve the expected path, check the
worktree exists, check dirtiness (the source calls `isWorktreeClean` and then
`getWorktreeStatus`, spawning the status subprocess twice), gate a dirty
removal behind the force-delete prompt, then remove. -/
def pruneCommand (branchName : String) (env : PruneEnv) : PruneOutcome × List Event :=
  match env.config with
  | none => (.noConfig, [])
  | some config =>
    let v := validateBranchName branchName
    if v.valid = false then (.invalidBranchName (v.error.getD ""), [])
    else
      let worktreePath := pathJoin config.worktree_base (sanitizeBranchName branchName)
      match listWorktrees env.listResult with
      | .error e => (.listError e, [Event.worktreeList])
      | .ok worktrees =>
        if ¬ worktreePath ∈ worktrees ∧ env.gitMarker worktreePath = false then
          (.worktreeNotFound worktreePath, [Event.worktreeList])
        else
          match getWorktreeStatus (env.statusResult worktreePath) with
          | .error e => (.statusError e, [Event.worktreeList, Event.status worktreePath])
          | .ok st =>
            let t0 : List Event :=
              [Event.worktreeList, Event.status worktreePath, Event.status worktreePath]
            if st = "" then
              match removeWorktree (env.removeResult worktreePath false) with
              | .error e =>
                (.removeFailed e.message, t0 ++ [Event.worktreeRemove worktreePath false])
              | .ok _ =>
                (.removed worktreePath false, t0 ++ [Event.worktreeRemove worktreePath false])
            else
              let ans := env.confirmForce worktreePath
              let tc := t0 ++ [Event.confirm ans]
              if ans = some true then
                match removeWorktree (env.removeResult worktreePath true) with
                | .error e =>
                  (.removeFailed e.message, tc ++ [Event.worktreeRemove worktreePath true])
                | .ok _ =>
                  (.removed worktreePath true, tc ++ [Event.worktreeRemove worktreePath true])
              else (.cancelled, tc)

/-- `PruneResult` from `prune.ts`: the per-target record pushed into the
`results` array in multi-select mode. -/
structure PruneResult where
  worktreeName : String
  success : Bool
  forceDelete : Bool := false
  cancelled : Bool := false
  error : Option String := none
deriving DecidableEq

/-- `pruneSingleWorktree` from `prune.ts`: the whole body runs inside a
`try`; a thrown `GitError` (status check or removal) is caught and recorded
as a failed result for this target only; declining or cancelling the
force-delete prompt records a cancelled result. -/
def pruneSingleWorktree (env : PruneEnv) (worktreePath worktreeName : String) :
    PruneResult × List Event :=
  match getWorktreeStatus (env.statusResult worktreePath) with
  | .error e =>
    ({ worktreeName := worktreeName, success := false, error := some e.message },
     [Event.status worktreePath])
  | .ok st =>
    let t0 : List Event := [Event.status worktreePath, Event.status worktreePath]
    if st = "" then
      match removeWorktree (env.removeResult worktreePath false) with
      | .error e =>
        ({ worktreeName := worktreeName, success := false, error := some e.message },
         t0 ++ [Event.worktreeRemove worktreePath false])
      | .ok _ =>
        ({ worktreeName := worktreeName, success := true, forceDelete := false },
         t0 ++ [Event.worktreeRemove worktreePath false])
    else
      let ans := env.confirmForce worktreePath
      if ans = some true then
        match removeWorktree (env.removeResult worktreePath true) with
        | .error e =>
          ({ worktreeName := worktreeName, success := false, error := some e.message },
           t0 ++ [Event.confirm ans, Event.worktreeRemove worktreePath true])
        | .ok _ =>
          ({ worktreeName := worktreeName, success := true, forceDelete := true },
           t0 ++ [Event.confirm ans, Event.worktreeRemove worktreePath true])
      else
        ({ worktreeName := worktreeName, success := false, cancelled := true },
         t0 ++ [Event.confirm ans])

/-- The per-target loop of `pruneMultipleWorktrees`: process every selected
worktree in order, collecting one `PruneResult` per target. -/
def pruneMultipleWorktrees (env : PruneEnv) (selected : List String) : List PruneResult :=
  selected.map (fun worktreePath =>
    (pruneSingleWorktree env worktreePath (jsBasename worktreePath)).1)

/-- Count of targets recorded as succeeded. -/
def countSucceeded (rs : List PruneResult) : Nat :=
  (rs.filter (fun r => r.success)).length

/-- Count of targets recorded as cancelled (declined force-delete prompt). -/
def countCancelled (rs : List PruneResult) : Nat :=
  (rs.filter (fun r => !r.success && r.cancelled)).length

/-- Count of targets recorded as failed (caught error). -/
def countFailed (rs : List PruneResult) : Nat :=
  (rs.filter (fun r => !r.success && !r.cancelled)).length

/-! ## Helper lemmas -/

/-- If every element surviving `dropWhile p` satisfies `p`, every element of
the original list does. -/
theorem forall_of_forall_dropWhile {p : Char → Bool} :
    ∀ l : List Char, (∀ x ∈ l.dropWhile p, p x = true) → ∀ x ∈ l, p x = true := by
  intro l
  induction l with
  | nil => simp
  | cons c t ih =>
    intro h x hx
    by_cases hc : p c = true
    · rcases List.mem_cons.mp hx with rfl | hx
      · exact hc
      · exact ih (by simpa [List.dropWhile_cons, hc] using h) x hx
    · exact h x (by simpa [List.dropWhile_cons, hc] using hx)

/-- `jsTrim` yields the empty string exactly on whitespace-only strings. -/
theorem jsTrim_eq_empty_iff (s : String) : jsTrim s = "" ↔ wsOnly s = true := by
  unfold jsTrim wsOnly
  constructor
  · intro h
    have hdata : ((s.data.dropWhile Char.isWhitespace).reverse.dropWhile
        Char.isWhitespace).reverse = [] := congrArg String.data h
    rw [List.reverse_eq_nil_iff, List.dropWhile_eq_nil_iff] at hdata
    have h2 : ∀ x ∈ s.data.dropWhile Char.isWhitespace, x.isWhitespace = true :=
      fun x hx => hdata x (List.mem_reverse.mpr hx)
    rw [List.all_eq_true]
    exact forall_of_forall_dropWhile s.data h2
  · intro h
    have h0 : s.data.dropWhile Char.isWhitespace = [] :=
      List.dropWhile_eq_nil_iff.mpr (by simpa [List.all_eq_true] using h)
    simp [h0]

/-- A string is empty exactly when its character list is. -/
theorem string_eq_empty_iff (s : String) : s = "" ↔ s.data = [] := by
  constructor
  · intro h; rw [h]
  · intro h
    cases s
    simp_all

/-! ## C5: the validator agrees with the spec rules, in order -/

/-- C5. For every string `s`, `validateBranchName s` is a total function
returning either `Ok` or one specific invalid reason, and it equals the
validator built from the five spec rejection rules (empty/whitespace-only;
leading dash; character outside the allowed class; containing `..`; ending
in `.lock`) applied first-failing-rule-first. -/
theorem validateBranchName_matches_spec (s : String) :
    validateBranchName s = validateSpecModel s ∧
      (validateBranchName s = ⟨true, none⟩ ∨
        ∃ e, validateBranchName s = ⟨false, some e⟩) := by
  have main : validateBranchName s = validateSpecModel s := by
    unfold validateBranchName validateSpecModel
    simp only [specRules, firstFailingRule]
    by_cases h1 : wsOnly s = true
    · have ht : jsTrim s = "" := (jsTrim_eq_empty_iff s).mpr h1
      simp [h1, ht]
    · have ht : ¬ jsTrim s = "" := fun h => h1 ((jsTrim_eq_empty_iff s).mp h)
      have hne : ¬ s = "" := by
        intro h; subst h; exact h1 (by decide)
      have hcond : ¬ (s = "" ∨ jsTrim s = "") := by
        intro h; rcases h with h | h
        · exact hne h
        · exact ht h
      rw [if_neg hcond, if_neg h1]
      by_cases h2 : jsStartsWith s "-" = true
      · simp [h2]
      · rw [if_neg h2, if_neg h2]
        have hdata : s.data ≠ [] := fun h => hne ((string_eq_empty_iff s).mpr h)
        have h3 : (¬ regexTest s = true) ↔ containsBadChar s = true := by
          unfold regexTest containsBadChar
          rw [List.isEmpty_eq_false.mpr hdata]
          simp [List.all_eq_true, List.any_eq_true, not_forall]
        by_cases h3c : containsBadChar s = true
        · rw [if_pos (h3.mpr h3c), if_pos h3c]
        · rw [if_neg (fun hr => h3c (h3.mp hr)), if_neg h3c]
          by_cases h4 : jsIncludes s ".." = true <;>
            by_cases h5 : jsEndsWith s ".lock" = true <;>
              simp [h4, h5]
  refine ⟨main, ?_⟩
  rw [main]
  unfold validateSpecModel
  cases firstFailingRule specRules s with
  | none => exact .inl rfl
  | some e => exact .inr ⟨e, rfl⟩

/-! ## C9: sanitization is idempotent -/

/-- Applying the slash-to-dash substitution twice is the same as once. -/
theorem sanitizeChar_idem (c : Char) : sanitizeChar (sanitizeChar c) = sanitizeChar c := by
  by_cases hc : c = '/'
  · simp [sanitizeChar, hc]
  · simp [sanitizeChar, hc]

/-- C9. For every valid branch name, sanitization (slashes to dashes) is
idempotent: a second pass has no further slashes to replace. -/
theorem sanitizeBranchName_idem (n : String)
    (_h : (validateBranchName n).valid = true) :
    sanitizeBranchName (sanitizeBranchName n) = sanitizeBranchName n := by
  unfold sanitizeBranchName
  rw [show (String.mk (n.data.map sanitizeChar)).data = n.data.map sanitizeChar from rfl,
    List.map_map]
  exact congrArg String.mk (List.map_congr_left (fun a _ => sanitizeChar_idem a))

/-- Witness for C9 at the spec example `feature/auth`. -/
theorem sanitizeBranchName_idem_witness :
    sanitizeBranchName (sanitizeBranchName "feature/auth") = sanitizeBranchName "feature/auth" :=
  sanitizeBranchName_idem "feature/auth" (by decide)

/-! ## Helper lemmas about `grow` traces -/

/-- The calls of `branchExists` are one or two rev-parse events. -/
theorem branchExists_events (env : GitEnv) (b : String) :
    (branchExists env b).2 = [Event.revParse b] ∨
      (branchExists env b).2 = [Event.revParse b, Event.revParse ("origin/" ++ b)] := by
  unfold branchExists
  by_cases h : env.branchLocal b
  · exact .inl (by simp [h])
  · exact .inr (by simp [h])

/-- The events `grow` has issued when it reaches the conflict check:
the fetch, the rev-parse calls, and the worktree list. -/
def growPre (env : GrowEnv) (b : String) : List Event :=
  Event.fetch :: ((branchExists env.git b).2 ++ (isRemoteOnlyBranch env.git b).2
    ++ [Event.worktreeList])

/-- No event issued before the conflict check is mutating or a prompt. -/
theorem growPre_readOnly (env : GrowEnv) (b : String) :
    (growPre env b).all (fun e => !e.isMutating && !e.isConfirm) = true := by
  unfold growPre
  rcases branchExists_events env.git b with h | h <;>
    simp [h, isRemoteOnlyBranch, Event.isMutating, Event.isConfirm]

/-- A list with no mutating event has no `worktree add` event. -/
theorem filter_isAdd_eq_nil {l : List Event}
    (h : l.all (fun e => !e.isMutating) = true) : l.filter Event.isAdd = [] := by
  rw [List.filter_eq_nil_iff]
  intro e he
  have := (List.all_eq_true.mp h) e he
  cases e <;> simp_all [Event.isMutating, Event.isAdd]

/-- `takeWhile` over a list that first satisfies the predicate throughout
and then hits a failing element returns exactly the leading part. -/
theorem takeWhile_append_stop {α : Type} {p : α → Bool} (l1 l2 : List α) (x : α)
    (h1 : ∀ e ∈ l1, p e = true) (hx : p x = false) :
    (l1 ++ x :: l2).takeWhile p = l1 := by
  induction l1 with
  | nil => simp [List.takeWhile_cons, hx]
  | cons a t ih =>
    have ha : p a = true := h1 a (by simp)
    simp only [List.cons_append, List.takeWhile_cons, ha, if_true]
    rw [ih (fun e he => h1 e (by simp [he]))]

/-- `growCommand` under the guards that let it reach the conflict check:
name non-empty and valid, config present, target folder free. The body from
the conflict check onward, with the accumulated call trace made explicit. -/
theorem growCommand_reach (env : GrowEnv) (b : String) (cfg : BonsaiConfig)
    (hv : (validateBranchName b).valid = true)
    (hc : env.config = some cfg)
    (hf : env.folderExists (pathJoin cfg.worktree_base (sanitizeBranchName b)) = false) :
    growCommand b env =
      (let worktreePath := pathJoin cfg.worktree_base (sanitizeBranchName b)
       let mainBranch := cfg.main_branch.getD "main"
       match findWorktreeForBranch env.worktreeListResult env.dirExists b with
       | some w =>
         if w.existsOnDisk = true then
           (.branchCheckedOutElsewhere w.path, growPre env b)
         else
           let tc := growPre env b ++ [Event.confirm env.confirmStale]
           if env.confirmStale = some true then
             match pruneStaleWorktrees env.pruneResult with
             | .error e => (.pruneFailed e.message, tc ++ [Event.worktreePrune])
             | .ok _ =>
               let (o, t) := growCreate env worktreePath b mainBranch
               (o, tc ++ [Event.worktreePrune] ++ t)
           else (.cancelledStale, tc)
       | none =>
         let (o, t) := growCreate env worktreePath b mainBranch
         (o, growPre env b ++ t)) := by
  have hb : ¬ b = "" := by
    intro h; subst h
    rw [show validateBranchName "" = ⟨false, some errEmpty⟩ from by decide] at hv
    simp at hv
  have hvne : ¬ (validateBranchName b).valid = false := by simp [hv]
  unfold growCommand growPre
  rw [if_neg hb, if_neg hvne, hc]
  simp only [hf, if_neg (by simp : ¬ (false = true))]

/-! ## C1: live conflict aborts without `worktree add` -/

/-- C1. When the worktree list records branch `b` at a path that still
exists on disk, `grow b` (having passed name validation, config lookup, and
the free-target-folder check) aborts with the branch-checked-out-elsewhere
error naming that path, and no `git worktree add` call is issued in the
invocation. -/
theorem grow_conflict_aborts (env : GrowEnv) (b : String) (cfg : BonsaiConfig)
    (w : WorktreeInfo)
    (hv : (validateBranchName b).valid = true)
    (hc : env.config = some cfg)
    (hf : env.folderExists (pathJoin cfg.worktree_base (sanitizeBranchName b)) = false)
    (hw : findWorktreeForBranch env.worktreeListResult env.dirExists b = some w)
    (he : w.existsOnDisk = true) :
    (growCommand b env).1 = .branchCheckedOutElsewhere w.path ∧
      (growCommand b env).2.filter Event.isAdd = [] := by
  rw [growCommand_reach env b cfg hv hc hf]
  simp only [hw, he, if_pos rfl]
  refine ⟨rfl, ?_⟩
  apply filter_isAdd_eq_nil
  have h := growPre_readOnly env b
  rw [List.all_eq_true] at h ⊢
  intro e he2
  exact (Bool.and_elim_left (h e he2))

/-- Concrete `grow` environment: branch `feature-x` is recorded in the
worktree list at `/elsewhere/feature-x`, and that directory exists. -/
def envC1 : GrowEnv :=
  { git :=
      { branchLocal := fun _ => true
        branchRemote := fun _ => false
        addResult := fun _ => ⟨0, "", ""⟩ }
    config := some ⟨"/base", some "main"⟩
    folderExists := fun _ => false
    dirExists := fun _ => true
    fetchResult := ⟨0, "", ""⟩
    worktreeListResult :=
      ⟨0, "worktree /elsewhere/feature-x\nbranch refs/heads/feature-x\n", ""⟩
    confirmStale := some true
    pruneResult := ⟨0, "", ""⟩ }

/-- Witness for C1: in `envC1`, `grow feature-x` aborts naming
`/elsewhere/feature-x` and issues no `worktree add`. -/
theorem grow_conflict_aborts_witness :
    (growCommand "feature-x" envC1).1
        = GrowOutcome.branchCheckedOutElsewhere "/elsewhere/feature-x" ∧
      (growCommand "feature-x" envC1).2.filter Event.isAdd = [] :=
  grow_conflict_aborts envC1 "feature-x" ⟨"/base", some "main"⟩
    ⟨"/elsewhere/feature-x", "feature-x", true⟩
    (by decide) (by decide) (by decide) (by decide) (by decide)

/-! ## C2: stale recovery is gated behind confirmation -/

/-- No event issued before the conflict check is a prompt. -/
theorem growPre_noConfirm (env : GrowEnv) (b : String) :
    ∀ e ∈ growPre env b, (!e.isConfirm) = true := by
  have h := growPre_readOnly env b
  rw [List.all_eq_true] at h
  intro e he
  exact Bool.and_elim_right (h e he)

/-- No event issued before the conflict check is mutating. -/
theorem growPre_noMutating (env : GrowEnv) (b : String) :
    ∀ e ∈ growPre env b, (!e.isMutating) = true := by
  have h := growPre_readOnly env b
  rw [List.all_eq_true] at h
  intro e he
  exact Bool.and_elim_left (h e he)

/-- C2. When the worktree list records branch `b` at a path that no longer
exists on disk (stale reference), every git call `grow b` issues before the
confirmation prompt is non-mutating, and if the confirmation is declined (or
the prompt cancelled) the invocation ends as cancelled with zero mutating
git calls (`worktree add`, `worktree remove`, `worktree prune`) issued. -/
theorem grow_stale_confirmation_gate (env : GrowEnv) (b : String)
    (cfg : BonsaiConfig) (w : WorktreeInfo)
    (hv : (validateBranchName b).valid = true)
    (hc : env.config = some cfg)
    (hf : env.folderExists (pathJoin cfg.worktree_base (sanitizeBranchName b)) = false)
    (hw : findWorktreeForBranch env.worktreeListResult env.dirExists b = some w)
    (he : w.existsOnDisk = false) :
    ((growCommand b env).2.takeWhile (fun e => !e.isConfirm)).all
        (fun e => !e.isMutating) = true ∧
      (env.confirmStale ≠ some true →
        (growCommand b env).1 = .cancelledStale ∧
          (growCommand b env).2.all (fun e => !e.isMutating) = true) := by
  rw [growCommand_reach env b cfg hv hc hf]
  simp only [hw, he, Bool.false_eq_true, if_false]
  constructor
  · by_cases hcs : env.confirmStale = some true
    · rw [if_pos hcs]
      rcases hp : pruneStaleWorktrees env.pruneResult with e | u
      · simp only [hp]
        rw [show growPre env b ++ [Event.confirm env.confirmStale] ++ [Event.worktreePrune]
              = growPre env b ++ Event.confirm env.confirmStale :: [Event.worktreePrune] by
            simp]
        rw [takeWhile_append_stop _ _ _ (growPre_noConfirm env b)
          (by simp [Event.isConfirm])]
        exact List.all_eq_true.mpr (growPre_noMutating env b)
      · simp only [hp]
        rcases hg : growCreate env (pathJoin cfg.worktree_base (sanitizeBranchName b)) b
            (cfg.main_branch.getD "main") with ⟨o, t⟩
        simp only [hg]
        rw [show growPre env b ++ [Event.confirm env.confirmStale]
                ++ [Event.worktreePrune] ++ t
              = growPre env b ++ Event.confirm env.confirmStale
                :: ([Event.worktreePrune] ++ t) by simp]
        rw [takeWhile_append_stop _ _ _ (growPre_noConfirm env b)
          (by simp [Event.isConfirm])]
        exact List.all_eq_true.mpr (growPre_noMutating env b)
    · rw [if_neg hcs]
      rw [show growPre env b ++ [Event.confirm env.confirmStale]
            = growPre env b ++ Event.confirm env.confirmStale :: [] by simp]
      rw [takeWhile_append_stop _ _ _ (growPre_noConfirm env b)
        (by simp [Event.isConfirm])]
      exact List.all_eq_true.mpr (growPre_noMutating env b)
  · intro hcs
    rw [if_neg hcs]
    refine ⟨rfl, ?_⟩
    rw [List.all_append]
    refine (Bool.and_eq_true _ _).mpr ⟨List.all_eq_true.mpr (growPre_noMutating env b), ?_⟩
    simp [Event.isMutating]

/-- Concrete `grow` environment: branch `feature-x` has a stale worktree
record (directory gone) and the user declines the prune confirmation. -/
def envC2 : GrowEnv :=
  { git :=
      { branchLocal := fun _ => true
        branchRemote := fun _ => false
        addResult := fun _ => ⟨0, "", ""⟩ }
    config := some ⟨"/base", some "main"⟩
    folderExists := fun _ => false
    dirExists := fun _ => false
    fetchResult := ⟨0, "", ""⟩
    worktreeListResult :=
      ⟨0, "worktree /elsewhere/feature-x\nbranch refs/heads/feature-x\n", ""⟩
    confirmStale := some false
    pruneResult := ⟨0, "", ""⟩ }

/-- Witness for C2: in `envC2` the declined stale-prune confirmation ends
the invocation as cancelled with no mutating call issued, and nothing
mutating precedes the prompt. -/
theorem grow_stale_confirmation_gate_witness :
    ((growCommand "feature-x" envC2).2.takeWhile (fun e => !e.isConfirm)).all
        (fun e => !e.isMutating) = true ∧
      (growCommand "feature-x" envC2).1 = .cancelledStale ∧
        (growCommand "feature-x" envC2).2.all (fun e => !e.isMutating) = true := by
  have h := grow_stale_confirmation_gate envC2 "feature-x" ⟨"/base", some "main"⟩
    ⟨"/elsewhere/feature-x", "feature-x", false⟩
    (by decide) (by decide) (by decide) (by decide) (by decide)
  exact ⟨h.1, h.2 (by decide)⟩

/-! ## C3: `createWorktree` selects exactly one of three invocations -/

/-- C3. `createWorktree` issues exactly one `git worktree add`, chosen by
branch status: remote-only tracks `origin/<branch>`; a local branch is
attached directly; a branch existing nowhere requires a start point and,
when the start point is absent (missing or empty — the source's falsy check
`if (!startPoint)`), aborts with the missing-start-point error issuing no
`worktree add` at all; a non-empty start point creates the branch from it. -/
theorem createWorktree_branch_selection (env : GitEnv) (path b : String)
    (sp : Option String) :
    ((env.branchLocal b = false ∧ env.branchRemote b = true) →
      (createWorktree env path b sp).2.filter Event.isAdd
        = [Event.worktreeAdd (AddCmd.trackRemote path b)]) ∧
    (env.branchLocal b = true →
      (createWorktree env path b sp).2.filter Event.isAdd
        = [Event.worktreeAdd (AddCmd.attachLocal path b)]) ∧
    ((env.branchLocal b = false ∧ env.branchRemote b = false ∧
        (sp = none ∨ sp = some "")) →
      (createWorktree env path b sp).1
          = .error ⟨errMissingStartPoint, -1, ""⟩ ∧
        (createWorktree env path b sp).2.filter Event.isAdd = []) ∧
    (∀ s, (env.branchLocal b = false ∧ env.branchRemote b = false ∧
        sp = some s ∧ s ≠ "") →
      (createWorktree env path b sp).2.filter Event.isAdd
        = [Event.worktreeAdd (AddCmd.newBranch b path s)]) := by
  refine ⟨?_, ?_, ?_, ?_⟩
  · rintro ⟨hl, hr⟩
    simp [createWorktree, branchExists, isRemoteOnlyBranch, hl, hr, Event.isAdd]
  · intro hl
    simp [createWorktree, branchExists, isRemoteOnlyBranch, hl, Event.isAdd]
  · rintro ⟨hl, hr, hsp | hsp⟩ <;>
    · subst hsp
      simp [createWorktree, branchExists, isRemoteOnlyBranch, hl, hr, pathTruthy,
        Event.isAdd]
  · rintro s ⟨hl, hr, hsp, hne⟩
    subst hsp
    simp [createWorktree, branchExists, isRemoteOnlyBranch, hl, hr, pathTruthy, hne,
      Event.isAdd]

/-- Git facts: `feature` is remote-only. -/
def gitEnvRemoteOnly : GitEnv :=
  { branchLocal := fun _ => false
    branchRemote := fun _ => true
    addResult := fun _ => ⟨0, "", ""⟩ }

/-- Git facts: `feature` exists locally. -/
def gitEnvLocal : GitEnv :=
  { branchLocal := fun _ => true
    branchRemote := fun _ => false
    addResult := fun _ => ⟨0, "", ""⟩ }

/-- Git facts: `feature` exists neither locally nor on origin. -/
def gitEnvNeither : GitEnv :=
  { branchLocal := fun _ => false
    branchRemote := fun _ => false
    addResult := fun _ => ⟨0, "", ""⟩ }

/-- Witness for C3: all cases at concrete inputs — remote-only tracks
origin, local attaches, a missing start point and an empty start point both
abort without any add, and a configured start point creates the new branch
from it. -/
theorem createWorktree_branch_selection_witness :
    (createWorktree gitEnvRemoteOnly "/wt/feature" "feature" none).2.filter Event.isAdd
        = [Event.worktreeAdd (AddCmd.trackRemote "/wt/feature" "feature")] ∧
      (createWorktree gitEnvLocal "/wt/feature" "feature" none).2.filter Event.isAdd
        = [Event.worktreeAdd (AddCmd.attachLocal "/wt/feature" "feature")] ∧
      ((createWorktree gitEnvNeither "/wt/feature" "feature" none).1
          = .error ⟨errMissingStartPoint, -1, ""⟩ ∧
        (createWorktree gitEnvNeither "/wt/feature" "feature" none).2.filter
          Event.isAdd = []) ∧
      ((createWorktree gitEnvNeither "/wt/feature" "feature" (some "")).1
          = .error ⟨errMissingStartPoint, -1, ""⟩ ∧
        (createWorktree gitEnvNeither "/wt/feature" "feature" (some "")).2.filter
          Event.isAdd = []) ∧
      (createWorktree gitEnvNeither "/wt/feature" "feature"
          (some "origin/main")).2.filter Event.isAdd
        = [Event.worktreeAdd (AddCmd.newBranch "feature" "/wt/feature" "origin/main")] :=
  ⟨(createWorktree_branch_selection gitEnvRemoteOnly "/wt/feature" "feature" none).1
      ⟨rfl, rfl⟩,
    (createWorktree_branch_selection gitEnvLocal "/wt/feature" "feature" none).2.1 rfl,
    (createWorktree_branch_selection gitEnvNeither "/wt/feature" "feature" none).2.2.1
      ⟨rfl, rfl, Or.inl rfl⟩,
    (createWorktree_branch_selection gitEnvNeither "/wt/feature" "feature"
      (some "")).2.2.1 ⟨rfl, rfl, Or.inr rfl⟩,
    (createWorktree_branch_selection gitEnvNeither "/wt/feature" "feature"
      (some "origin/main")).2.2.2 "origin/main" ⟨rfl, rfl, rfl, by decide⟩⟩

/-! ## C4: dirty prune is gated, clean prune is not -/

/-- `pruneCommand` under the guards that let it reach the dirtiness check:
config present, name valid, worktree list read, target resolved. -/
theorem pruneCommand_reach (env : PruneEnv) (b : String) (cfg : BonsaiConfig)
    (ws : List String)
    (hc : env.config = some cfg)
    (hv : (validateBranchName b).valid = true)
    (hl : listWorktrees env.listResult = .ok ws)
    (hfound : pathJoin cfg.worktree_base (sanitizeBranchName b) ∈ ws ∨
      env.gitMarker (pathJoin cfg.worktree_base (sanitizeBranchName b)) = true) :
    pruneCommand b env =
      (let worktreePath := pathJoin cfg.worktree_base (sanitizeBranchName b)
       match getWorktreeStatus (env.statusResult worktreePath) with
       | .error e => (.statusError e, [Event.worktreeList, Event.status worktreePath])
       | .ok st =>
         let t0 : List Event :=
           [Event.worktreeList, Event.status worktreePath, Event.status worktreePath]
         if st = "" then
           match removeWorktree (env.removeResult worktreePath false) with
           | .error e =>
             (.removeFailed e.message, t0 ++ [Event.worktreeRemove worktreePath false])
           | .ok _ =>
             (.removed worktreePath false, t0 ++ [Event.worktreeRemove worktreePath false])
         else
           let ans := env.confirmForce worktreePath
           let tc := t0 ++ [Event.confirm ans]
           if ans = some true then
             match removeWorktree (env.removeResult worktreePath true) with
             | .error e =>
               (.removeFailed e.message, tc ++ [Event.worktreeRemove worktreePath true])
             | .ok _ =>
               (.removed worktreePath true, tc ++ [Event.worktreeRemove worktreePath true])
           else (.cancelled, tc)) := by
  have hvne : ¬ (validateBranchName b).valid = false := by simp [hv]
  unfold pruneCommand
  rw [hc]
  simp only []
  rw [if_neg hvne, hl]
  simp only []
  rw [if_neg ?_]
  rintro ⟨hni, hm⟩
  rcases hfound with h | h
  · exact hni h
  · simp [h] at hm

/-- C4. When the porcelain status of the resolved prune target is non-empty
(dirty), removal happens only through `git worktree remove --force` after
the force-delete confirmation; declining ends the invocation as cancelled
with no `worktree remove` issued. When the status is empty (clean), the
removal runs without `--force` and no confirmation prompt is ever shown. -/
theorem prune_dirty_confirmation_gate (env : PruneEnv) (b : String)
    (cfg : BonsaiConfig) (ws : List String) (st : String)
    (hc : env.config = some cfg)
    (hv : (validateBranchName b).valid = true)
    (hl : listWorktrees env.listResult = .ok ws)
    (hfound : pathJoin cfg.worktree_base (sanitizeBranchName b) ∈ ws ∨
      env.gitMarker (pathJoin cfg.worktree_base (sanitizeBranchName b)) = true)
    (hs : getWorktreeStatus
      (env.statusResult (pathJoin cfg.worktree_base (sanitizeBranchName b))) = .ok st) :
    (st ≠ "" →
      (env.confirmForce (pathJoin cfg.worktree_base (sanitizeBranchName b)) ≠ some true →
        (pruneCommand b env).1 = .cancelled ∧
          (pruneCommand b env).2.filter Event.isRemove = []) ∧
      (env.confirmForce (pathJoin cfg.worktree_base (sanitizeBranchName b)) = some true →
        (pruneCommand b env).2
          = [Event.worktreeList,
             Event.status (pathJoin cfg.worktree_base (sanitizeBranchName b)),
             Event.status (pathJoin cfg.worktree_base (sanitizeBranchName b)),
             Event.confirm (some true),
             Event.worktreeRemove (pathJoin cfg.worktree_base (sanitizeBranchName b)) true])) ∧
    (st = "" →
      (pruneCommand b env).2
          = [Event.worktreeList,
             Event.status (pathJoin cfg.worktree_base (sanitizeBranchName b)),
             Event.status (pathJoin cfg.worktree_base (sanitizeBranchName b)),
             Event.worktreeRemove (pathJoin cfg.worktree_base (sanitizeBranchName b)) false] ∧
        (pruneCommand b env).2.all (fun e => !e.isConfirm) = true) := by
  rw [pruneCommand_reach env b cfg ws hc hv hl hfound]
  simp only [hs]
  constructor
  · intro hdirty
    rw [if_neg hdirty]
    constructor
    · intro hdecl
      rw [if_neg hdecl]
      exact ⟨rfl, by simp [Event.isRemove]⟩
    · intro hconf
      rw [if_pos hconf, hconf]
      rcases hr : removeWorktree (env.removeResult
          (pathJoin cfg.worktree_base (sanitizeBranchName b)) true) with e | u <;>
        simp [hr]
  · intro hclean
    rw [if_pos hclean]
    rcases hr : removeWorktree (env.removeResult
        (pathJoin cfg.worktree_base (sanitizeBranchName b)) false) with e | u <;>
      simp [hr, Event.isConfirm]

/-- Concrete `prune` environment: the target of branch `feature-x` is listed,
dirty (one modified file), and the user confirms the force delete. -/
def envC4 : PruneEnv :=
  { config := some ⟨"/base", some "main"⟩
    listResult := ⟨0, "worktree /base/feature-x\nbranch refs/heads/feature-x\n", ""⟩
    gitMarker := fun _ => false
    statusResult := fun _ => ⟨0, " M src/app.ts\n", ""⟩
    confirmForce := fun _ => some true
    removeResult := fun _ _ => ⟨0, "", ""⟩ }

/-- Witness for C4: in `envC4` the dirty target is removed with `--force`
only after the confirmation prompt appears in the trace. -/
theorem prune_dirty_confirmation_gate_witness :
    (pruneCommand "feature-x" envC4).2
      = [Event.worktreeList, Event.status "/base/feature-x",
         Event.status "/base/feature-x", Event.confirm (some true),
         Event.worktreeRemove "/base/feature-x" true] := by
  have h := prune_dirty_confirmation_gate envC4 "feature-x" ⟨"/base", some "main"⟩
    ["/base/feature-x"] "M src/app.ts"
    (by decide) (by decide) (by rfl) (by decide) (by rfl)
  exact (h.1 (by decide)).2 (by decide)

/-! ## C8: multi-select prune isolates per-target failures -/

/-- Every recorded `PruneResult` is exactly one of succeeded, failed,
cancelled, so the three counts partition the results. -/
theorem pruneResult_counts_partition (rs : List PruneResult) :
    countSucceeded rs + countFailed rs + countCancelled rs = rs.length := by
  induction rs with
  | nil => rfl
  | cons r t ih =>
    unfold countSucceeded countFailed countCancelled at ih ⊢
    cases hs : r.success <;> cases hcl : r.cancelled <;>
      simp [List.filter_cons, hs, hcl] <;> omega

/-- C8. Multi-select prune over the selected targets records exactly one
outcome per target (counts of succeeded, failed, and cancelled summing to
the number of targets), and each target's recorded outcome is exactly
`pruneSingleWorktree` of that target alone — a failure on one target is
caught into its own record and cannot affect, or stop, any other target. -/
theorem prune_multi_isolation (env : PruneEnv) (selected : List String) :
    (pruneMultipleWorktrees env selected).length = selected.length ∧
      countSucceeded (pruneMultipleWorktrees env selected)
          + countFailed (pruneMultipleWorktrees env selected)
          + countCancelled (pruneMultipleWorktrees env selected) = selected.length ∧
      ∀ i (h : i < selected.length)
          (h2 : i < (pruneMultipleWorktrees env selected).length),
        (pruneMultipleWorktrees env selected).get ⟨i, h2⟩
          = (pruneSingleWorktree env (selected.get ⟨i, h⟩)
              (jsBasename (selected.get ⟨i, h⟩))).1 := by
  refine ⟨List.length_map _ _, ?_, ?_⟩
  · rw [pruneResult_counts_partition]
    exact List.length_map _ _
  · intro i h h2
    unfold pruneMultipleWorktrees at h2 ⊢
    simp [List.get_eq_getElem, List.getElem_map]

/-- Concrete multi-select `prune` environment: three clean targets except
`/base/b`, whose status subprocess fails. -/
def envC8 : PruneEnv :=
  { config := some ⟨"/base", some "main"⟩
    listResult := ⟨0, "", ""⟩
    gitMarker := fun _ => false
    statusResult := fun p => if p = "/base/b" then ⟨128, "", "fatal: bad revision"⟩
      else ⟨0, "", ""⟩
    confirmForce := fun _ => some true
    removeResult := fun _ _ => ⟨0, "", ""⟩ }

/-- The three selected targets of the C8 witness scenario. -/
def selC8 : List String := ["/base/a", "/base/b", "/base/c"]

/-- Witness for C8: with the middle of three targets failing, the failing
target's record equals its own single-target run, and the three recorded
outcomes still partition into succeeded plus failed plus cancelled. -/
theorem prune_multi_isolation_witness :
    (pruneMultipleWorktrees envC8 selC8).get ⟨1, by decide⟩
        = (pruneSingleWorktree envC8 (selC8.get ⟨1, by decide⟩)
            (jsBasename (selC8.get ⟨1, by decide⟩))).1 ∧
      countSucceeded (pruneMultipleWorktrees envC8 selC8)
          + countFailed (pruneMultipleWorktrees envC8 selC8)
          + countCancelled (pruneMultipleWorktrees envC8 selC8) = 3 :=
  ⟨(prune_multi_isolation envC8 selC8).2.2 1 (by decide) (by decide),
    (prune_multi_isolation envC8 selC8).2.1⟩

/-! ## C6: which git wrappers surface `GitError` -/

/-- A failing `git worktree list --porcelain` subprocess result. -/
def procFail : ProcResult := ⟨128, "", "fatal: not a git repository"⟩

/-- Counterexample for C6: on a non-zero `git worktree list --porcelain`
exit, the source `findWorktreeForBranch` returns `null` — indistinguishable
from a branch with no worktree — instead of surfacing the `GitError` the
spec-modelled variant produces. -/
theorem findWorktreeForBranch_swallows_list_failure :
    findWorktreeForBranch procFail (fun _ => true) "feature" = none ∧
      findWorktreeForBranchSpecModel procFail (fun _ => true) "feature"
        = .error ⟨"Failed to list worktrees: fatal: not a git repository", 128,
            "fatal: not a git repository"⟩ ∧
      Except.ok (findWorktreeForBranch procFail (fun _ => true) "feature")
        ≠ findWorktreeForBranchSpecModel procFail (fun _ => true) "feature" := by
  refine ⟨by decide, by rfl, ?_⟩
  intro h
  rw [show findWorktreeForBranchSpecModel procFail (fun _ => true) "feature"
      = .error ⟨"Failed to list worktrees: fatal: not a git repository", 128,
          "fatal: not a git repository"⟩ from by rfl] at h
  exact Except.noConfusion h

/-- C6 (amended). Every throwing git wrapper (`listWorktrees`,
`getWorktreeStatus`, `removeWorktree`, `pruneStaleWorktrees`, `fetchRemote`)
surfaces a structured `GitError` carrying the subprocess exit code and
trimmed stderr whenever the subprocess exits non-zero; `findWorktreeForBranch`
alone returns `null` on a failing `git worktree list --porcelain` instead of
surfacing the error. -/
theorem gitWrappers_surface_errors (r : ProcResult) (h : r.exitCode ≠ 0)
    (d : String → Bool) (b : String) :
    (∃ e, listWorktrees r = .error e ∧ e.exitCode = r.exitCode ∧
        e.stderr = jsTrim r.stderr) ∧
      (∃ e, getWorktreeStatus r = .error e ∧ e.exitCode = r.exitCode ∧
        e.stderr = jsTrim r.stderr) ∧
      (∃ e, removeWorktree r = .error e ∧ e.exitCode = r.exitCode ∧
        e.stderr = jsTrim r.stderr) ∧
      (∃ e, pruneStaleWorktrees r = .error e ∧ e.exitCode = r.exitCode ∧
        e.stderr = jsTrim r.stderr) ∧
      (∃ e, fetchRemote r = .error e ∧ e.exitCode = r.exitCode ∧
        e.stderr = jsTrim r.stderr) ∧
      findWorktreeForBranch r d b = none := by
  refine ⟨⟨gitFail "Failed to list worktrees: " r, ?_, rfl, rfl⟩,
    ⟨gitFail "Failed to get worktree status: " r, ?_, rfl, rfl⟩,
    ⟨gitFail "Failed to remove worktree: " r, ?_, rfl, rfl⟩,
    ⟨gitFail "Failed to prune stale worktrees: " r, ?_, rfl, rfl⟩,
    ⟨gitFail "Failed to fetch from remote: " r, ?_, rfl, rfl⟩, ?_⟩ <;>
    simp [listWorktrees, getWorktreeStatus, removeWorktree, pruneStaleWorktrees,
      fetchRemote, findWorktreeForBranch, h]

/-- Witness for C6 at the concrete failing subprocess result. -/
theorem gitWrappers_surface_errors_witness :
    (∃ e, listWorktrees procFail = .error e ∧ e.exitCode = procFail.exitCode ∧
        e.stderr = jsTrim procFail.stderr) ∧
      (∃ e, getWorktreeStatus procFail = .error e ∧ e.exitCode = procFail.exitCode ∧
        e.stderr = jsTrim procFail.stderr) ∧
      (∃ e, removeWorktree procFail = .error e ∧ e.exitCode = procFail.exitCode ∧
        e.stderr = jsTrim procFail.stderr) ∧
      (∃ e, pruneStaleWorktrees procFail = .error e ∧ e.exitCode = procFail.exitCode ∧
        e.stderr = jsTrim procFail.stderr) ∧
      (∃ e, fetchRemote procFail = .error e ∧ e.exitCode = procFail.exitCode ∧
        e.stderr = jsTrim procFail.stderr) ∧
      findWorktreeForBranch procFail (fun _ => true) "feature" = none :=
  gitWrappers_surface_errors procFail (by decide) (fun _ => true) "feature"

/-! ## C7: exit codes -/

/-- Counterexample for C7: in `envC2` the user declines the stale-worktree
confirmation; the invocation ends as a cancellation and the process exits
with code 0, not 1. -/
theorem grow_cancel_exit_zero :
    (growCommand "feature-x" envC2).1 = GrowOutcome.cancelledStale ∧
      growExitCode (growCommand "feature-x" envC2).1 = 0 ∧
      growExitCode (growCommand "feature-x" envC2).1 ≠ 1 := by
  decide

/-- C7 (amended). Command invocations exit with code 0 on success and on a
user-declined confirmation (cancellation), and with code 1 on every other
abort or error outcome. -/
theorem exit_code_policy :
    (∀ o : GrowOutcome, growExitCode o = 0 ↔
        o = .cancelledStale ∨ ∃ p b, o = .success p b) ∧
      (∀ o : PruneOutcome, pruneExitCode o = 0 ↔
        o = .cancelled ∨ ∃ p f, o = .removed p f) := by
  constructor <;> intro o <;> cases o <;> simp [growExitCode, pruneExitCode]

/-! ## C10: sanitization is not injective and collides grow targets -/

/-- C10. `feature/auth` and `feature-auth` are distinct names that both pass
validation yet sanitize to the same folder name; consequently whenever the
worktree directory for one of them exists under the configured base,
`grow` of the other aborts with the worktree-already-exists error. -/
theorem sanitize_collision_grow (env : GrowEnv) (cfg : BonsaiConfig)
    (hc : env.config = some cfg)
    (hf : env.folderExists (pathJoin cfg.worktree_base "feature-auth") = true) :
    validateBranchName "feature/auth" = ⟨true, none⟩ ∧
      validateBranchName "feature-auth" = ⟨true, none⟩ ∧
      ("feature/auth" : String) ≠ "feature-auth" ∧
      sanitizeBranchName "feature/auth" = sanitizeBranchName "feature-auth" ∧
      (growCommand "feature/auth" env).1
        = .worktreeAlreadyExists (pathJoin cfg.worktree_base "feature-auth") := by
  refine ⟨by decide, by decide, by decide, by decide, ?_⟩
  unfold growCommand
  rw [if_neg (by decide : ¬ ("feature/auth" : String) = ""),
    if_neg (by decide : ¬ (validateBranchName "feature/auth").valid = false), hc]
  simp only [show sanitizeBranchName "feature/auth" = "feature-auth" from by decide, hf]
  simp

/-- Concrete `grow` environment where the directory `/base/feature-auth`
(the worktree folder of branch `feature-auth`) already exists. -/
def envC10 : GrowEnv :=
  { git :=
      { branchLocal := fun _ => true
        branchRemote := fun _ => false
        addResult := fun _ => ⟨0, "", ""⟩ }
    config := some ⟨"/base", some "main"⟩
    folderExists := fun p => p == "/base/feature-auth"
    dirExists := fun _ => false
    fetchResult := ⟨0, "", ""⟩
    worktreeListResult := ⟨0, "", ""⟩
    confirmStale := some true
    pruneResult := ⟨0, "", ""⟩ }

/-- Witness for C10: growing `feature/auth` while `feature-auth`s worktree
folder exists aborts with the worktree-already-exists error. -/
theorem sanitize_collision_grow_witness :
    (growCommand "feature/auth" envC10).1
      = GrowOutcome.worktreeAlreadyExists "/base/feature-auth" := by
  have h := sanitize_collision_grow envC10 ⟨"/base", some "main"⟩ (by decide) (by decide)
  exact h.2.2.2.2

end Bonsai
